import Mathlib

/-!
Verification of the FlightTool core (CSV import pipeline and flight
statistics aggregation) against its natural-language specification.

The definitions below are a shallow embedding of:
  * `extractAirportCode` and the `/api/flights/import-csv` handler loop
    from `src/server/routes.ts`;
  * `DatabaseStorage.getFlightStats` from the storage module
    (`src/unnamed/part_008` / `part_009`, the variant whose column set
    matches the flight rows the import handler inserts; the copy at
    `src/server/storage.ts` is a stale variant noted where relevant).

The record store is modelled as an in-memory list of flights; the SQL
queries of `getFlightStats` are modelled as list operations with the
same `WHERE` / `DISTINCT` / `GROUP BY` / `ORDER BY` / `LIMIT` meaning.
-/

namespace FlightTool

/-- A calendar date (year, month, day) as stored in the `date` column.
Represents a valid (non-`Invalid`) JavaScript `Date` truncated to its
calendar-date part, which is all the stats code inspects. -/
structure JsDate where
  year : Nat
  month : Nat
  day : Nat
deriving DecidableEq

/-- One step of the regex `\(([A-Z]{3})\//` of `extractAirportCode`
(src/server/routes.ts line 214) anchored at the current position: an
opening parenthesis, exactly three ASCII uppercase letters, then a slash. -/
def codeHere : List Char → Option (List Char)
  | '(' :: a :: b :: c :: '/' :: _ =>
    if a.isUpper && b.isUpper && c.isUpper then some [a, b, c] else none
  | _ => none

/-- Left-to-right scan for the leftmost position where `codeHere` matches,
exactly as `String.prototype.match` finds the leftmost regex match. -/
def scanCode : List Char → Option (List Char)
  | [] => none
  | x :: xs =>
    match codeHere (x :: xs) with
    | some r => some r
    | none => scanCode xs

/-- Embeds `extractAirportCode` from `src/server/routes.ts` (lines 213-216):
`airportString.match(/\(([A-Z]{3})\//)` returning the captured group, and
`null` (here `none`) when the pattern is absent. -/
def extractAirportCode (s : String) : Option String :=
  (scanCode s.data).map fun l => String.mk l

/-- Numeric value of an ASCII digit. -/
def digitVal (c : Char) : Nat := c.toNat - 48

/-- Leap-year rule of the proleptic Gregorian calendar used by
JavaScript `Date`. -/
def isLeap (y : Nat) : Bool := (y % 4 == 0 && y % 100 != 0) || y % 400 == 0

/-- Number of days of month `m` of year `y` (Gregorian). -/
def daysInMonth (y m : Nat) : Nat :=
  if m == 2 then (if isLeap y then 29 else 28)
  else if m == 4 || m == 6 || m == 9 || m == 11 then 30
  else 31

/-- Models the JavaScript `new Date(string)` call of the import handler
(src/server/routes.ts line 131), restricted to ISO calendar-date input
`YYYY-MM-DD`: such a string yields the corresponding valid date, and
every other string in scope (in particular the empty string, which
JavaScript turns into an `Invalid Date`) yields `none`. `none` stands for
an `Invalid Date`, which the database layer rejects when inserting. -/
def jsParseDate (s : String) : Option JsDate :=
  match s.data with
  | [y1, y2, y3, y4, '-', m1, m2, '-', d1, d2] =>
    if y1.isDigit && y2.isDigit && y3.isDigit && y4.isDigit &&
       m1.isDigit && m2.isDigit && d1.isDigit && d2.isDigit then
      let y := ((digitVal y1 * 10 + digitVal y2) * 10 + digitVal y3) * 10 + digitVal y4
      let m := digitVal m1 * 10 + digitVal m2
      let d := digitVal d1 * 10 + digitVal d2
      if 1 ≤ m && m ≤ 12 && 1 ≤ d && d ≤ daysInMonth y m then
        some ⟨y, m, d⟩
      else none
    else none
  | _ => none

/-- `new Date(x)` where `x` may be `undefined` (an absent CSV column):
`new Date(undefined)` is an `Invalid Date`. -/
def jsParseDateOpt (o : Option String) : Option JsDate := o.bind jsParseDate

/-- One data row as produced by `csv-parser`: each expected header name
maps to the cell string when the header is present in the file
(`none` models a JavaScript `undefined` property for an absent header). -/
structure CsvRow where
  date : Option String
  flightNumber : Option String
  fromAirport : Option String
  toAirport : Option String
  depTime : Option String
  arrTime : Option String
  duration : Option String
  airline : Option String
  aircraft : Option String
  registration : Option String
  seatNumber : Option String
  seatType : Option String
  flightClass : Option String
  flightReason : Option String
  note : Option String
deriving DecidableEq

/-- Value of the column named `name` in a data row, as `csv-parser`
assigns it: the cell at the header's index, `undefined` (`none`) when the
header is absent. -/
def colValue (headers cells : List String) (name : String) : Option String :=
  match headers.findIdx? (fun h => h == name) with
  | some i => cells[i]?
  | none => none

/-- Builds the header-keyed row object `csv-parser` emits for one data
line, restricted to the fifteen columns the import handler reads. -/
def mkCsvRow (headers cells : List String) : CsvRow :=
  { date := colValue headers cells "Date"
    flightNumber := colValue headers cells "Flight number"
    fromAirport := colValue headers cells "From"
    toAirport := colValue headers cells "To"
    depTime := colValue headers cells "Dep time"
    arrTime := colValue headers cells "Arr time"
    duration := colValue headers cells "Duration"
    airline := colValue headers cells "Airline"
    aircraft := colValue headers cells "Aircraft"
    registration := colValue headers cells "Registration"
    seatNumber := colValue headers cells "Seat number"
    seatType := colValue headers cells "Seat type"
    flightClass := colValue headers cells "Flight class"
    flightReason := colValue headers cells "Flight reason"
    note := colValue headers cells "Note" }

/-- A persisted flight row, with the columns of the `flights` table that
the import handler populates (src/shared/schema.ts, second `flights`
definition). The database-assigned `id` / `createdAt` / `updatedAt`
columns are omitted: no statistics query inspects them. Optional text
columns carry the drizzle default `""` when the CSV value was
`undefined`; the code columns are genuinely nullable (`Option`). -/
structure Flight where
  userId : String
  date : JsDate
  flightNumber : String
  fromAirport : String
  toAirport : String
  fromAirportCode : Option String
  toAirportCode : Option String
  departureTime : String
  arrivalTime : String
  duration : String
  airline : String
  aircraftType : String
  registration : String
  seatNumber : String
  seatType : String
  flightClass : String
  flightReason : String
  notes : String
deriving DecidableEq

/-- One iteration of the import loop (src/server/routes.ts lines 128-153):
builds `flightData` from the row and persists it with
`storage.createFlight`. Returns `none` when the iteration throws, which
happens exactly when `row.From` or `row.To` is `undefined`
(`extractAirportCode` then throws a `TypeError`), when the date is an
`Invalid Date` (the timestamp insert fails), or when a `NOT NULL` column
(`flightNumber`, `airline`) receives no value. -/
def processRow (uid : String) (r : CsvRow) : Option Flight :=
  match r.fromAirport, r.toAirport with
  | some fa, some ta =>
    match jsParseDateOpt r.date, r.flightNumber, r.airline with
    | some d, some fn, some al =>
      some { userId := uid
             date := d
             flightNumber := fn
             fromAirport := fa
             toAirport := ta
             fromAirportCode := extractAirportCode fa
             toAirportCode := extractAirportCode ta
             departureTime := r.depTime.getD ""
             arrivalTime := r.arrTime.getD ""
             duration := r.duration.getD ""
             airline := al
             aircraftType := r.aircraft.getD ""
             registration := r.registration.getD ""
             seatNumber := r.seatNumber.getD ""
             seatType := r.seatType.getD ""
             flightClass := r.flightClass.getD ""
             flightReason := r.flightReason.getD ""
             notes := r.note.getD "" }
    | _, _, _ => none
  | _, _ => none

/-- The `for (const row of csvData)` loop of the import handler: rows are
processed in file order; each successful row appends one flight to the
store; the first throwing row aborts the whole remaining batch (the
`catch` answers a single 500 error), leaving the flights persisted so far
in place. Returns the final store and `some importedCount` on success,
`none` on the single aborting error. -/
def importLoop (uid : String) : List CsvRow → List Flight → List Flight × Option Nat
  | [], store => (store, some 0)
  | r :: rs, store =>
    match processRow uid r with
    | none => (store, none)
    | some f =>
      match importLoop uid rs (store ++ [f]) with
      | (s, some n) => (s, some (n + 1))
      | (s, none) => (s, none)

/-- The whole `/api/flights/import-csv` handler after `csv-parser` has
split the file into a header row and data rows: every data row is turned
into its header-keyed object and fed through the import loop. There is no
header validation step of any kind before the loop. -/
def importCsv (uid : String) (headers : List String) (dataRows : List (List String))
    (store : List Flight) : List Flight × Option Nat :=
  importLoop uid (dataRows.map (mkCsvRow headers)) store

/-- The expected header row of an import file (spec section 6). -/
def csvHeaders : List String :=
  ["Date", "Flight number", "From", "To", "Dep time", "Arr time", "Duration",
   "Airline", "Aircraft", "Registration", "Seat number", "Seat type",
   "Flight class", "Flight reason", "Note"]

/-- One entry of the `topAirlines` list of the stats result. -/
structure TopAirlineEntry where
  airline : String
  count : Nat
  percentage : Nat
deriving DecidableEq

/-- One entry of the `monthlyActivity` list of the stats result. -/
structure MonthActivityEntry where
  month : String
  count : Nat
deriving DecidableEq

/-- The statistics object `getFlightStats` returns. -/
structure FlightStats where
  totalFlights : Nat
  totalDistance : Nat
  airportsVisited : Nat
  airlinesFlown : Nat
  recentFlights : List Flight
  topAirlines : List TopAirlineEntry
  monthlyActivity : List MonthActivityEntry
deriving DecidableEq

/-- JavaScript `Math.round(count / total * 100)` for the exact rational
value `100 * count / total`: round half away from zero, which for
nonnegative arguments is `⌊100 * count / total + 1 / 2⌋`. Only ever
applied with `0 < total`. -/
def jsRound100 (count total : Nat) : Nat := (200 * count + total) / (2 * total)

/-- `Set.prototype.add` on an insertion-ordered set represented as a
duplicate-free list. -/
def setInsert (s : List String) (x : String) : List String :=
  if x ∈ s then s else s ++ [x]

/-- The `if (result.fromAirport) uniqueAirports.add(result.fromAirport)`
step of `getFlightStats`: a `null` code (and, by JavaScript truthiness,
an empty-string code) is not added. -/
def addCodeToSet (s : List String) : Option String → List String
  | some v => if v = "" then s else setInsert s v
  | none => s

/-- Strict chronological order on stored dates (the order of the
`timestamp` column). -/
def dateLtb (a b : JsDate) : Bool :=
  a.year < b.year ||
    (a.year == b.year && (a.month < b.month || (a.month == b.month && a.day < b.day)))

/-- Inserts `x` into a list sorted in descending order with respect to the
strict order `lt`, after every element not below `x` (a stable insertion). -/
def insertDescBy (lt : α → α → Bool) (x : α) : List α → List α
  | [] => [x]
  | y :: ys => if lt y x then x :: y :: ys else y :: insertDescBy lt x ys

/-- Stable insertion sort, descending with respect to `lt`. Models an SQL
`ORDER BY … DESC` (SQL leaves the order of ties unspecified; any total
arrangement of ties is a faithful model, and no verified property depends
on the tie order). -/
def sortDescBy (lt : α → α → Bool) : List α → List α
  | [] => []
  | x :: xs => insertDescBy lt x (sortDescBy lt xs)

/-- The `GROUP BY airline` / `count(*)` query of `getFlightStats`: one
`(airline, count)` pair per distinct airline string of `fs`. -/
def airlineCounts (fs : List Flight) : List (String × Nat) :=
  ((fs.map fun f => f.airline).dedup).map fun a =>
    (a, (fs.filter fun f => f.airline == a).length)

/-- The month abbreviation the PostgreSQL `TO_CHAR` format `Mon` produces. -/
def monthAbbrev : Nat → String
  | 1 => "Jan" | 2 => "Feb" | 3 => "Mar" | 4 => "Apr" | 5 => "May" | 6 => "Jun"
  | 7 => "Jul" | 8 => "Aug" | 9 => "Sep" | 10 => "Oct" | 11 => "Nov" | 12 => "Dec"
  | _ => ""

/-- Embeds `DatabaseStorage.getFlightStats` (src/unnamed/part_008 lines
149-227; identically src/unnamed/part_009). Each SQL query filters the
`flights` table by `userId`; `nowYear` is the year of `CURRENT_DATE` at
computation time. The stale copy at `src/server/storage.ts` differs in two
queries (airports from the free-text fields, `monthlyActivity` stubbed to
`[]`); the embedded variant is the one whose columns match the rows that
the CSV handler inserts. -/
def getFlightStats (store : List Flight) (uid : String) (nowYear : Nat) : FlightStats :=
  let totalFlights := (store.filter fun f => f.userId == uid).length
  let airportsVisitedResult :=
    ((store.filter fun f => f.userId == uid).map fun f =>
      (f.fromAirportCode, f.toAirportCode)).dedup
  let uniqueAirports :=
    airportsVisitedResult.foldl (fun s p => addCodeToSet (addCodeToSet s p.1) p.2) []
  let airlinesFlownResult :=
    ((store.filter fun f => f.userId == uid).map fun f => f.airline).dedup
  let recentFlights :=
    (sortDescBy (fun a b => dateLtb a.date b.date)
      (store.filter fun f => f.userId == uid)).take 5
  let topAirlinesResult :=
    (sortDescBy (fun p q => decide (p.2 < q.2))
      (airlineCounts (store.filter fun f => f.userId == uid))).take 10
  let topAirlines := topAirlinesResult.map fun it =>
    { airline := it.1, count := it.2,
      percentage := if 0 < totalFlights then jsRound100 it.2 totalFlights else 0 }
  let yearRows := store.filter fun f => f.userId == uid && f.date.year == nowYear
  let monthlyActivity :=
    (sortDescBy (fun a b => decide (b < a)) ((yearRows.map fun f => f.date.month).dedup)).map
      fun m =>
        { month := monthAbbrev m
          count := (yearRows.filter fun f => f.date.month == m).length
          : MonthActivityEntry }
  { totalFlights := totalFlights
    totalDistance := 0
    airportsVisited := uniqueAirports.length
    airlinesFlown := airlinesFlownResult.length
    recentFlights := recentFlights
    topAirlines := topAirlines
    monthlyActivity := monthlyActivity }

/-- Number of the owner's flights dated in month `m` of year `y`
(the count the spec's monthly-activity description asks for). -/
def monthCount (store : List Flight) (uid : String) (y m : Nat) : Nat :=
  (store.filter fun f => f.userId == uid && f.date.year == y && f.date.month == m).length

/-- The monthly-activity list exactly as the spec words it: one
`(monthLabel, count)` entry for each calendar month of the current year
with at least one flight, in ascending month order, months with zero
flights absent. Stated from the spec for comparison with the code's
`getFlightStats`. -/
def monthlySpec (store : List Flight) (uid : String) (y : Nat) : List MonthActivityEntry :=
  (List.range 12).filterMap fun i =>
    if monthCount store uid y (i + 1) = 0 then none
    else some { month := monthAbbrev (i + 1), count := monthCount store uid y (i + 1) }

/-- Inserts an optional code into a set of codes; `none` contributes
nothing. Spec-side building block for the distinct-airport count. -/
def insertOptCode (o : Option String) (s : Finset String) : Finset String :=
  match o with
  | some c => insert c s
  | none => s

/-- The set of airport codes the spec's distinct-airport description asks
for: the union of the non-null origin and destination codes over a list
of flights. Stated from the spec for comparison with the code's
`getFlightStats`. -/
def airportCodeSet (fs : List Flight) : Finset String :=
  fs.foldr (fun f acc => insertOptCode f.fromAirportCode (insertOptCode f.toAirportCode acc)) ∅

/-- A flight row as the (out-of-scope) manual-entry path might store it;
used to build concrete stores in the examples below. -/
def mkFlight (uid : String) (d : JsDate) (al : String) (fc tc : Option String) : Flight :=
  { userId := uid, date := d, flightNumber := "FT1", fromAirport := "A", toAirport := "B",
    fromAirportCode := fc, toAirportCode := tc, departureTime := "", arrivalTime := "",
    duration := "", airline := al, aircraftType := "", registration := "", seatNumber := "",
    seatType := "", flightClass := "", flightReason := "", notes := "" }

/-- Six flights of one owner, each with a distinct airline. -/
def sixStore : List Flight :=
  [mkFlight "u" ⟨2025, 3, 2⟩ "A1" none none, mkFlight "u" ⟨2025, 3, 3⟩ "A2" none none,
   mkFlight "u" ⟨2025, 4, 2⟩ "A3" none none, mkFlight "u" ⟨2025, 5, 2⟩ "A4" none none,
   mkFlight "u" ⟨2025, 6, 2⟩ "A5" none none, mkFlight "u" ⟨2025, 7, 2⟩ "A6" none none]

/-- A data row whose `Date` cell is blank and whose other cells are valid. -/
def blankDateCells : List String :=
  ["", "LH452", "Frankfurt (FRA/EDDF)", "Los Angeles (LAX/KLAX)", "", "", "",
   "Lufthansa (LH/DLH)", "", "", "", "", "", "", ""]

/-- A fully valid data row. -/
def validCells : List String :=
  ["2024-06-01", "LH452", "Frankfurt (FRA/EDDF)", "Los Angeles (LAX/KLAX)", "", "", "",
   "Lufthansa (LH/DLH)", "", "", "", "", "", "", ""]

/-! ### Generic helper lemmas -/

theorem mem_insertDescBy {lt : α → α → Bool} {x a : α} {l : List α} :
    a ∈ insertDescBy lt x l ↔ a = x ∨ a ∈ l := by
  induction l with
  | nil => simp [insertDescBy]
  | cons y ys ih =>
    by_cases h : lt y x = true
    · simp [insertDescBy, h]
    · simp only [insertDescBy, if_neg h, List.mem_cons, ih]
      tauto

theorem perm_insertDescBy (lt : α → α → Bool) (x : α) (l : List α) :
    List.Perm (insertDescBy lt x l) (x :: l) := by
  induction l with
  | nil => simp [insertDescBy]
  | cons y ys ih =>
    by_cases h : lt y x = true
    · simp [insertDescBy, h]
    · have heq : insertDescBy lt x (y :: ys) = y :: insertDescBy lt x ys := by
        simp [insertDescBy, h]
      rw [heq]
      exact (ih.cons y).trans (List.Perm.swap x y ys)

theorem perm_sortDescBy (lt : α → α → Bool) (l : List α) :
    List.Perm (sortDescBy lt l) l := by
  induction l with
  | nil => simp [sortDescBy]
  | cons x xs ih =>
    have heq : sortDescBy lt (x :: xs) = insertDescBy lt x (sortDescBy lt xs) := rfl
    rw [heq]
    exact (perm_insertDescBy lt x _).trans (ih.cons x)

theorem mem_sortDescBy {lt : α → α → Bool} {a : α} {l : List α} :
    a ∈ sortDescBy lt l ↔ a ∈ l :=
  (perm_sortDescBy lt l).mem_iff

theorem pairwise_le_insertAscNat (x : Nat) (l : List Nat) (h : l.Pairwise (· ≤ ·)) :
    (insertDescBy (fun a b : Nat => decide (b < a)) x l).Pairwise (· ≤ ·) := by
  induction l with
  | nil => simp [insertDescBy]
  | cons y ys ih =>
    rcases List.pairwise_cons.mp h with ⟨hy, hys⟩
    by_cases hlt : x < y
    · have heq : insertDescBy (fun a b : Nat => decide (b < a)) x (y :: ys) = x :: y :: ys := by
        simp [insertDescBy, hlt]
      rw [heq]
      refine List.pairwise_cons.mpr ⟨?_, h⟩
      intro b hb
      rcases List.mem_cons.mp hb with rfl | hb
      · exact Nat.le_of_lt hlt
      · exact le_trans (Nat.le_of_lt hlt) (hy b hb)
    · have hyx : y ≤ x := by omega
      have heq : insertDescBy (fun a b : Nat => decide (b < a)) x (y :: ys) =
          y :: insertDescBy (fun a b : Nat => decide (b < a)) x ys := by
        simp [insertDescBy, hlt]
      rw [heq]
      refine List.pairwise_cons.mpr ⟨?_, ih hys⟩
      intro b hb
      rcases mem_insertDescBy.mp hb with rfl | hb
      · exact hyx
      · exact hy b hb

theorem pairwise_le_sortAscNat (l : List Nat) :
    (sortDescBy (fun a b : Nat => decide (b < a)) l).Pairwise (· ≤ ·) := by
  induction l with
  | nil => simp [sortDescBy]
  | cons x xs ih => exact pairwise_le_insertAscNat x _ ih

theorem mem_setInsert {s : List String} {v x : String} :
    x ∈ setInsert s v ↔ x ∈ s ∨ x = v := by
  by_cases h : v ∈ s
  · simp only [setInsert, if_pos h]
    constructor
    · exact Or.inl
    · rintro (hx | rfl)
      · exact hx
      · exact h
  · simp [setInsert, if_neg h]

theorem nodup_setInsert {s : List String} {v : String} (h : s.Nodup) :
    (setInsert s v).Nodup := by
  by_cases hv : v ∈ s
  · simpa [setInsert, if_pos hv] using h
  · simp only [setInsert, if_neg hv]
    simpa [List.nodup_append] using ⟨h, fun hx => hv hx⟩

theorem mem_addCodeToSet {s : List String} {o : Option String} {x : String} :
    x ∈ addCodeToSet s o ↔ x ∈ s ∨ (o = some x ∧ x ≠ "") := by
  match o with
  | none => simp [addCodeToSet]
  | some v =>
    by_cases hv : v = ""
    · subst hv
      simp only [addCodeToSet, if_pos rfl]
      constructor
      · exact Or.inl
      · rintro (hx | ⟨hx, hne⟩)
        · exact hx
        · cases hx
          exact absurd rfl hne
    · simp only [addCodeToSet, if_neg hv, mem_setInsert, Option.some.injEq]
      constructor
      · rintro (hx | rfl)
        · exact Or.inl hx
        · exact Or.inr ⟨rfl, hv⟩
      · rintro (hx | ⟨rfl, _⟩)
        · exact Or.inl hx
        · exact Or.inr rfl

theorem nodup_addCodeToSet {s : List String} {o : Option String} (h : s.Nodup) :
    (addCodeToSet s o).Nodup := by
  match o with
  | none => simpa [addCodeToSet] using h
  | some v =>
    by_cases hv : v = ""
    · simpa [addCodeToSet, hv] using h
    · simpa [addCodeToSet, hv] using nodup_setInsert h

/-- The airport-code accumulation step of `getFlightStats`. -/
def addPairToSet (s : List String) (p : Option String × Option String) : List String :=
  addCodeToSet (addCodeToSet s p.1) p.2

theorem mem_foldl_addPairToSet {x : String} (L : List (Option String × Option String))
    (init : List String) :
    x ∈ L.foldl addPairToSet init ↔
      x ∈ init ∨ ∃ p ∈ L, (p.1 = some x ∨ p.2 = some x) ∧ x ≠ "" := by
  induction L generalizing init with
  | nil => simp
  | cons p ps ih =>
    simp only [List.foldl_cons, ih, addPairToSet, mem_addCodeToSet, List.mem_cons]
    constructor
    · rintro (((hx | ⟨h1, hne⟩) | ⟨h2, hne⟩) | ⟨q, hq, hcode, hne⟩)
      · exact Or.inl hx
      · exact Or.inr ⟨p, Or.inl rfl, Or.inl h1, hne⟩
      · exact Or.inr ⟨p, Or.inl rfl, Or.inr h2, hne⟩
      · exact Or.inr ⟨q, Or.inr hq, hcode, hne⟩
    · rintro (hx | ⟨q, (rfl | hq), hcode, hne⟩)
      · exact Or.inl (Or.inl (Or.inl hx))
      · rcases hcode with h1 | h2
        · exact Or.inl (Or.inl (Or.inr ⟨h1, hne⟩))
        · exact Or.inl (Or.inr ⟨h2, hne⟩)
      · exact Or.inr ⟨q, hq, hcode, hne⟩

theorem nodup_foldl_addPairToSet (L : List (Option String × Option String))
    (init : List String) (h : init.Nodup) : (L.foldl addPairToSet init).Nodup := by
  induction L generalizing init with
  | nil => simpa
  | cons p ps ih =>
    exact ih _ (nodup_addCodeToSet (nodup_addCodeToSet h))

theorem mem_insertOptCode {o : Option String} {s : Finset String} {x : String} :
    x ∈ insertOptCode o s ↔ o = some x ∨ x ∈ s := by
  cases o with
  | none => simp [insertOptCode]
  | some v => simp [insertOptCode, Finset.mem_insert, eq_comm]

theorem mem_airportCodeSet {fs : List Flight} {x : String} :
    x ∈ airportCodeSet fs ↔
      ∃ f ∈ fs, f.fromAirportCode = some x ∨ f.toAirportCode = some x := by
  induction fs with
  | nil => simp [airportCodeSet]
  | cons f gs ih =>
    simp only [airportCodeSet, List.foldr_cons] at ih ⊢
    rw [mem_insertOptCode, mem_insertOptCode, ih]
    simp only [List.mem_cons]
    constructor
    · rintro (h1 | h2 | ⟨g, hg, hc⟩)
      · exact ⟨f, Or.inl rfl, Or.inl h1⟩
      · exact ⟨f, Or.inl rfl, Or.inr h2⟩
      · exact ⟨g, Or.inr hg, hc⟩
    · rintro ⟨g, (rfl | hg), hc⟩
      · tauto
      · exact Or.inr (Or.inr ⟨g, hg, hc⟩)

/-! ### Import pipeline lemmas -/

theorem processRow_eq_none_iff (uid : String) (q : CsvRow) :
    processRow uid q = none ↔
      q.fromAirport = none ∨ q.toAirport = none ∨ jsParseDateOpt q.date = none ∨
        q.flightNumber = none ∨ q.airline = none := by
  cases hfa : q.fromAirport <;> cases hta : q.toAirport <;>
    cases hd : jsParseDateOpt q.date <;> cases hfn : q.flightNumber <;>
    cases hal : q.airline <;> simp [processRow, hfa, hta, hd, hfn, hal]

theorem processRow_userId (uid : String) (q : CsvRow) (f : Flight)
    (h : processRow uid q = some f) : f.userId = uid := by
  cases hfa : q.fromAirport <;> cases hta : q.toAirport <;>
    cases hd : jsParseDateOpt q.date <;> cases hfn : q.flightNumber <;>
    cases hal : q.airline <;> rw [processRow] at h <;>
    simp [hfa, hta, hd, hfn, hal] at h <;> simp [← h]

theorem importLoop_all_ok (uid : String) (rows : List CsvRow) (store : List Flight)
    (h : ∀ r ∈ rows, (processRow uid r).isSome) :
    importLoop uid rows store =
      (store ++ rows.filterMap (processRow uid), some rows.length) := by
  induction rows generalizing store with
  | nil => simp [importLoop]
  | cons r rs ih =>
    obtain ⟨f, hf⟩ := Option.isSome_iff_exists.mp (h r (List.mem_cons_self r rs))
    have hrs : ∀ q ∈ rs, (processRow uid q).isSome :=
      fun q hq => h q (List.mem_cons_of_mem r hq)
    simp only [importLoop, hf, ih (store ++ [f]) hrs, List.filterMap_cons, List.length_cons]
    simp [List.append_assoc]

theorem importLoop_first_fail (uid : String) (pre : List CsvRow) (r : CsvRow)
    (post : List CsvRow) (store : List Flight)
    (hpre : ∀ q ∈ pre, (processRow uid q).isSome) (hr : processRow uid r = none) :
    importLoop uid (pre ++ r :: post) store =
      (store ++ pre.filterMap (processRow uid), none) := by
  induction pre generalizing store with
  | nil => simp [importLoop, hr]
  | cons q qs ih =>
    obtain ⟨f, hf⟩ := Option.isSome_iff_exists.mp (hpre q (List.mem_cons_self q qs))
    have hqs : ∀ p ∈ qs, (processRow uid p).isSome :=
      fun p hp => hpre p (List.mem_cons_of_mem q hp)
    rw [List.cons_append]
    simp only [importLoop, hf, ih (store ++ [f]) hqs, List.filterMap_cons]
    simp [List.append_assoc]

theorem length_filterMap_of_isSome {α β : Type} {g : α → Option β} {l : List α}
    (h : ∀ a ∈ l, (g a).isSome) : (l.filterMap g).length = l.length := by
  induction l with
  | nil => simp
  | cons a as ih =>
    obtain ⟨b, hb⟩ := Option.isSome_iff_exists.mp (h a (List.mem_cons_self a as))
    rw [List.filterMap_cons, hb]
    simp [ih fun a ha => h a (List.mem_cons_of_mem _ ha)]

/-! ### Statistics lemmas -/

theorem filter_userId_idem (store : List Flight) (uid : String) :
    ((store.filter fun f => f.userId == uid).filter fun f => f.userId == uid) =
      store.filter fun f => f.userId == uid :=
  List.filter_eq_self.mpr fun f hf => (List.mem_filter.mp hf).2

theorem filter_year_of_filter_user (store : List Flight) (uid : String) (y : Nat) :
    ((store.filter fun f => f.userId == uid).filter
        fun f => f.userId == uid && f.date.year == y) =
      store.filter fun f => f.userId == uid && f.date.year == y := by
  rw [List.filter_filter]
  apply List.filter_congr
  intro f _
  cases hu : f.userId == uid <;> cases hy : f.date.year == y <;> simp [hu, hy]

/-- `getFlightStats` reads nothing outside the owner's rows: applying it
to the store restricted to the owner's flights gives the same result. -/
theorem getFlightStats_filter (store : List Flight) (uid : String) (y : Nat) :
    getFlightStats (store.filter fun f => f.userId == uid) uid y =
      getFlightStats store uid y := by
  unfold getFlightStats
  rw [filter_userId_idem, filter_year_of_filter_user]

theorem recentFlights_eq (store : List Flight) (uid : String) (y : Nat) :
    (getFlightStats store uid y).recentFlights =
      (sortDescBy (fun a b => dateLtb a.date b.date)
        (store.filter fun f => f.userId == uid)).take 5 := rfl

/-! ### Claim theorems -/

/-- C8 (confirmed): an import of a file containing only the header row
(zero data rows) succeeds and reports an imported count of 0; the zero
count is an ordinary success result, not an error. -/
theorem import_header_only_file (uid : String) (store : List Flight) :
    importCsv uid csvHeaders [] store = (store, some 0) := rfl

/-- C10 (confirmed): the stats result carries a `totalDistance` field that
is the constant 0 for every owner and store; it is never computed from
the data (`src/unnamed/part_008` line 220: `totalDistance: 0`). -/
theorem totalDistance_always_zero (store : List Flight) (uid : String) (y : Nat) :
    (getFlightStats store uid y).totalDistance = 0 := rfl

/-- C9 (confirmed): `getFlightStats` depends only on the flights whose
`userId` equals the requested owner: two stores agreeing on the owner's
flights yield identical stats, and every flight in `recentFlights` is
owned by the owner. -/
theorem getFlightStats_noninterference (uid : String) (y : Nat) (s1 s2 : List Flight)
    (h : s1.filter (fun f => f.userId == uid) = s2.filter (fun f => f.userId == uid)) :
    getFlightStats s1 uid y = getFlightStats s2 uid y ∧
      ∀ f ∈ (getFlightStats s1 uid y).recentFlights, f.userId = uid := by
  constructor
  · rw [← getFlightStats_filter s1, h, getFlightStats_filter]
  · intro f hf
    rw [recentFlights_eq] at hf
    have hf2 := mem_sortDescBy.mp (List.mem_of_mem_take hf)
    have := (List.mem_filter.mp hf2).2
    exact eq_of_beq this

/-- Witness for C9: a store with one foreign flight added yields the very
same stats for owner `"u"`. -/
theorem getFlightStats_noninterference_witness :
    getFlightStats [mkFlight "u" ⟨2025, 3, 2⟩ "LH" (some "FRA") (some "LAX")] "u" 2025 =
      getFlightStats [mkFlight "u" ⟨2025, 3, 2⟩ "LH" (some "FRA") (some "LAX"),
        mkFlight "v" ⟨2025, 4, 1⟩ "BA" (some "LHR") none] "u" 2025 ∧
      ∀ f ∈ (getFlightStats [mkFlight "u" ⟨2025, 3, 2⟩ "LH" (some "FRA") (some "LAX")]
          "u" 2025).recentFlights, f.userId = "u" :=
  getFlightStats_noninterference "u" 2025
    [mkFlight "u" ⟨2025, 3, 2⟩ "LH" (some "FRA") (some "LAX")]
    [mkFlight "u" ⟨2025, 3, 2⟩ "LH" (some "FRA") (some "LAX"),
      mkFlight "v" ⟨2025, 4, 1⟩ "BA" (some "LHR") none]
    (by decide)

/-- C1 counterexample: importing a file whose first data row has a blank
`Date` cell and whose second data row is fully valid aborts the whole
batch with a single error (`none`): no `RowError` is recorded, the bad
row is not merely skipped, and the subsequent valid row is NOT persisted
(the final store is empty), contradicting the claim. -/
theorem import_blank_date_aborts_batch :
    importCsv "user" csvHeaders [blankDateCells, validCells] [] = ([], none) := by rfl

/-- C1 (corrected): the import handler validates nothing per row. A row on
which the iteration throws (absent `From`/`To` column, unparseable date,
or an absent required column) aborts the import at that row: the rows
before it stay persisted, all later rows are dropped, and the caller gets
one error with no per-row log. Moreover a throwing row is exactly one
with an absent required column or an unparseable date — a present but
empty required cell (empty string) is persisted, not failed. -/
theorem import_row_failure_semantics (uid : String) (pre : List CsvRow) (r : CsvRow)
    (post : List CsvRow) (store : List Flight)
    (hpre : ∀ q ∈ pre, (processRow uid q).isSome) (hr : processRow uid r = none) :
    importLoop uid (pre ++ r :: post) store =
      (store ++ pre.filterMap (processRow uid), none) ∧
      ∀ q : CsvRow, processRow uid q = none ↔
        q.fromAirport = none ∨ q.toAirport = none ∨ jsParseDateOpt q.date = none ∨
          q.flightNumber = none ∨ q.airline = none :=
  ⟨importLoop_first_fail uid pre r post store hpre hr, processRow_eq_none_iff uid⟩

/-- Witness for C1's amended theorem at a concrete file: a valid row, then
a blank-date row, then another valid row; exactly the first row is
persisted and the import errors. -/
theorem import_row_failure_semantics_witness :
    importLoop "user"
        ([mkCsvRow csvHeaders validCells] ++
          mkCsvRow csvHeaders blankDateCells :: [mkCsvRow csvHeaders validCells]) [] =
      ([] ++ [mkCsvRow csvHeaders validCells].filterMap (processRow "user"), none) :=
  (import_row_failure_semantics "user" [mkCsvRow csvHeaders validCells]
    (mkCsvRow csvHeaders blankDateCells) [mkCsvRow csvHeaders validCells] []
    (by decide) (by decide)).1

/-- C6 counterexample: a file missing every required header but containing
zero data rows imports successfully with count 0 — no `ImportError`, no
fail-fast header validation, contradicting the claim. -/
theorem import_missing_headers_no_error :
    importCsv "user" ["Foo"] [] [] = ([], some 0) := rfl

/-- C6 (corrected): the import handler performs no header validation at
all. A file with zero data rows succeeds with count 0 whatever its
headers; a missing required header only surfaces once a data row is
processed — e.g. with the `From` header absent, the first data row throws
(aborting with a single error and no store write), which is a
row-processing failure, not a fail-fast structural check. -/
theorem import_no_header_validation (uid : String) (headers : List String)
    (store : List Flight) :
    importCsv uid headers [] store = (store, some 0) ∧
      ∀ cells rest, "From" ∉ headers →
        importCsv uid headers (cells :: rest) store = (store, none) := by
  refine ⟨rfl, fun cells rest hFrom => ?_⟩
  have hidx : headers.findIdx? (fun h => h == "From") = none := by
    rw [List.findIdx?_eq_none_iff]
    intro a ha
    simp only [beq_eq_false_iff_ne, ne_eq]
    exact fun hEq => hFrom (hEq ▸ ha)
  have hcol : colValue headers cells "From" = none := by
    simp [colValue, hidx]
  have hrow : processRow uid (mkCsvRow headers cells) = none := by
    have : (mkCsvRow headers cells).fromAirport = none := hcol
    simp [processRow, this]
  simp [importCsv, importLoop, hrow]

/-- Witness for C6's amended theorem: with only a `Date` header, an empty
file succeeds with count 0, and a one-row file aborts with no write. -/
theorem import_no_header_validation_witness :
    importCsv "user" ["Date"] [] [] = ([], some 0) ∧
      importCsv "user" ["Date"] [["2024-06-01"]] [] = ([], none) := by
  obtain ⟨h1, h2⟩ := import_no_header_validation "user" ["Date"] []
  exact ⟨h1, h2 ["2024-06-01"] [] (by decide)⟩

/-- C7 (confirmed): for an owner with no stored flights, importing a file
whose data rows are all valid persists one flight per row, in file order,
reports an imported count equal to the number of data rows, and a
subsequent stats call reports the same number as `totalFlights`. -/
theorem import_roundtrip (uid : String) (y : Nat) (headers : List String)
    (dataRows : List (List String)) (store : List Flight)
    (hvalid : ∀ cells ∈ dataRows, (processRow uid (mkCsvRow headers cells)).isSome)
    (hempty : store.filter (fun f => f.userId == uid) = []) :
    (importCsv uid headers dataRows store).2 = some dataRows.length ∧
      (importCsv uid headers dataRows store).1 =
        store ++ (dataRows.map (mkCsvRow headers)).filterMap (processRow uid) ∧
      (getFlightStats (importCsv uid headers dataRows store).1 uid y).totalFlights =
        dataRows.length := by
  have hrows : ∀ r ∈ dataRows.map (mkCsvRow headers), (processRow uid r).isSome := by
    intro r hr
    obtain ⟨cells, hc, rfl⟩ := List.mem_map.mp hr
    exact hvalid cells hc
  have hrun := importLoop_all_ok uid (dataRows.map (mkCsvRow headers)) store hrows
  have h2 : (importCsv uid headers dataRows store).2 = some dataRows.length := by
    rw [importCsv, hrun]
    simp
  have h1 : (importCsv uid headers dataRows store).1 =
      store ++ (dataRows.map (mkCsvRow headers)).filterMap (processRow uid) := by
    rw [importCsv, hrun]
  refine ⟨h2, h1, ?_⟩
  rw [h1]
  have hTotal : (getFlightStats
      (store ++ (dataRows.map (mkCsvRow headers)).filterMap (processRow uid)) uid y).totalFlights =
      ((store ++ (dataRows.map (mkCsvRow headers)).filterMap (processRow uid)).filter
        (fun f => f.userId == uid)).length := rfl
  rw [hTotal, List.filter_append, hempty]
  have hown : ((dataRows.map (mkCsvRow headers)).filterMap (processRow uid)).filter
      (fun f => f.userId == uid) =
      (dataRows.map (mkCsvRow headers)).filterMap (processRow uid) := by
    apply List.filter_eq_self.mpr
    intro f hf
    obtain ⟨r, _, hr⟩ := List.mem_filterMap.mp hf
    exact beq_iff_eq.mpr (processRow_userId uid r f hr)
  rw [hown, List.nil_append, length_filterMap_of_isSome hrows, List.length_map]

/-- Witness for C7 at a concrete one-row file into an empty store. -/
theorem import_roundtrip_witness :
    (importCsv "user" csvHeaders [validCells] []).2 = some [validCells].length ∧
      (importCsv "user" csvHeaders [validCells] []).1 =
        [] ++ ([validCells].map (mkCsvRow csvHeaders)).filterMap (processRow "user") ∧
      (getFlightStats (importCsv "user" csvHeaders [validCells] []).1
        "user" 2024).totalFlights = [validCells].length :=
  import_roundtrip "user" 2024 csvHeaders [validCells] [] (by decide) rfl

theorem totalFlights_eq (store : List Flight) (uid : String) (y : Nat) :
    (getFlightStats store uid y).totalFlights =
      (store.filter fun f => f.userId == uid).length := rfl

theorem topAirlines_eq (store : List Flight) (uid : String) (y : Nat) :
    (getFlightStats store uid y).topAirlines =
      ((sortDescBy (fun p q => decide (p.2 < q.2))
        (airlineCounts (store.filter fun f => f.userId == uid))).take 10).map
        (fun it =>
          { airline := it.1
            count := it.2
            percentage := if 0 < (store.filter fun f => f.userId == uid).length then
              jsRound100 it.2 (store.filter fun f => f.userId == uid).length else 0 }) := rfl

/-- C2 counterexample: for an owner with six flights on six distinct
airlines, every `topAirlines` percentage is `round(1/6*100) = 17`, so the
percentages sum to 102 — the claimed invariant `sum <= 100` is false. -/
theorem topAirlines_percentage_sum_gt_100 :
    100 < ((getFlightStats sixStore "u" 2025).topAirlines.map fun e => e.percentage).sum := by
  decide

/-- C2 (corrected): each `topAirlines` entry's percentage equals
`round(count / total * 100)` computed as an integer, and an owner with
zero flights gets an empty `topAirlines` with no division fault; but the
sum of the percentages can exceed 100 (rounding each share up), so the
claimed bound `sum <= 100` does not hold. -/
theorem topAirlines_percentage_spec (store : List Flight) (uid : String) (y : Nat) :
    ((store.filter fun f => f.userId == uid).length = 0 →
      (getFlightStats store uid y).topAirlines = []) ∧
      ∀ e ∈ (getFlightStats store uid y).topAirlines,
        0 < (getFlightStats store uid y).totalFlights ∧
        e.percentage = jsRound100 e.count (getFlightStats store uid y).totalFlights := by
  constructor
  · intro h0
    have hfs : store.filter (fun f => f.userId == uid) = [] := List.length_eq_zero.mp h0
    rw [topAirlines_eq, hfs]
    rfl
  · intro e he
    rw [topAirlines_eq] at he
    obtain ⟨p, hp, rfl⟩ := List.mem_map.mp he
    have hmem : p ∈ airlineCounts (store.filter fun f => f.userId == uid) :=
      mem_sortDescBy.mp (List.mem_of_mem_take hp)
    obtain ⟨a, ha, hpa⟩ := List.mem_map.mp hmem
    have ha2 : a ∈ (store.filter fun f => f.userId == uid).map (fun f => f.airline) :=
      List.mem_dedup.mp ha
    obtain ⟨f, hf, _⟩ := List.mem_map.mp ha2
    have hpos : 0 < (store.filter fun f => f.userId == uid).length :=
      List.length_pos.mpr (List.ne_nil_of_mem hf)
    rw [totalFlights_eq]
    exact ⟨hpos, by simp [if_pos hpos]⟩

/-- Witness for C2's amended theorem: a store whose only flight belongs to
someone else gives the owner an empty `topAirlines`, and the percentage
equation holds for each (vacuously no) entry. -/
theorem topAirlines_percentage_spec_witness :
    (getFlightStats [mkFlight "v" ⟨2025, 1, 1⟩ "BA" none none] "u" 2025).topAirlines = [] :=
  (topAirlines_percentage_spec [mkFlight "v" ⟨2025, 1, 1⟩ "BA" none none] "u" 2025).1
    (by decide)

theorem airportsVisited_proj (store : List Flight) (uid : String) (y : Nat) :
    (getFlightStats store uid y).airportsVisited =
      ((((store.filter fun f => f.userId == uid).map fun f =>
        (f.fromAirportCode, f.toAirportCode)).dedup).foldl addPairToSet []).length := rfl

/-- C4 (confirmed): for every store whose code cells are either null or a
real (nonempty) code — which is all the import pipeline ever writes —
`airportsVisited` equals the cardinality of the union of the non-null
origin and destination codes over the owner's flights; null codes
contribute nothing and cause no error. -/
theorem airportsVisited_eq_card_codes (store : List Flight) (uid : String) (y : Nat)
    (hcodes : ∀ f ∈ store, f.fromAirportCode ≠ some "" ∧ f.toAirportCode ≠ some "") :
    (getFlightStats store uid y).airportsVisited =
      (airportCodeSet (store.filter fun f => f.userId == uid)).card := by
  rw [airportsVisited_proj]
  set fs := store.filter fun f => f.userId == uid with hfs
  set pairs := (fs.map fun f => (f.fromAirportCode, f.toAirportCode)).dedup with hpairs
  have hnodup : (pairs.foldl addPairToSet []).Nodup :=
    nodup_foldl_addPairToSet pairs [] List.nodup_nil
  have hmem : ∀ x, x ∈ pairs.foldl addPairToSet [] ↔ x ∈ airportCodeSet fs := by
    intro x
    rw [mem_foldl_addPairToSet, mem_airportCodeSet]
    constructor
    · rintro (hx | ⟨p, hp, hcode, hne⟩)
      · simp at hx
      · obtain ⟨f, hf, rfl⟩ := List.mem_map.mp (List.mem_dedup.mp (hpairs ▸ hp))
        exact ⟨f, hf, hcode⟩
    · rintro ⟨f, hf, hcode⟩
      have hfstore : f ∈ store := (List.mem_filter.mp (hfs ▸ hf)).1
      refine Or.inr ⟨(f.fromAirportCode, f.toAirportCode),
        List.mem_dedup.mpr (List.mem_map.mpr ⟨f, hf, rfl⟩), hcode, ?_⟩
      rcases hcode with h1 | h2
      · exact fun hx => (hcodes f hfstore).1 (hx ▸ h1)
      · exact fun hx => (hcodes f hfstore).2 (hx ▸ h2)
  have hset : (pairs.foldl addPairToSet []).toFinset = airportCodeSet fs :=
    Finset.ext fun x => by rw [List.mem_toFinset]; exact hmem x
  rw [← List.toFinset_card_of_nodup hnodup, hset]

/-- Witness for C4 at a concrete store with resolved, unresolved and
foreign-owner codes. -/
theorem airportsVisited_eq_card_codes_witness :
    (getFlightStats
        [mkFlight "u" ⟨2025, 3, 2⟩ "LH" (some "FRA") (some "LAX"),
          mkFlight "u" ⟨2025, 4, 1⟩ "LH" none (some "FRA"),
          mkFlight "v" ⟨2025, 1, 1⟩ "BA" (some "LHR") none] "u" 2025).airportsVisited =
      (airportCodeSet
        ([mkFlight "u" ⟨2025, 3, 2⟩ "LH" (some "FRA") (some "LAX"),
          mkFlight "u" ⟨2025, 4, 1⟩ "LH" none (some "FRA"),
          mkFlight "v" ⟨2025, 1, 1⟩ "BA" (some "LHR") none].filter
          fun f => f.userId == "u")).card :=
  airportsVisited_eq_card_codes
    [mkFlight "u" ⟨2025, 3, 2⟩ "LH" (some "FRA") (some "LAX"),
      mkFlight "u" ⟨2025, 4, 1⟩ "LH" none (some "FRA"),
      mkFlight "v" ⟨2025, 1, 1⟩ "BA" (some "LHR") none] "u" 2025 (by decide)

theorem monthCount_eq (store : List Flight) (uid : String) (y m : Nat) :
    monthCount store uid y m =
      ((store.filter fun f => f.userId == uid && f.date.year == y).filter
        fun f => f.date.month == m).length := by
  rw [monthCount, List.filter_filter]
  congr 1
  apply List.filter_congr
  intro f _
  cases h1 : f.userId == uid <;> cases h2 : f.date.year == y <;>
    cases h3 : f.date.month == m <;> simp [h1, h2, h3]

theorem monthlyActivity_proj (store : List Flight) (uid : String) (y : Nat) :
    (getFlightStats store uid y).monthlyActivity =
      (sortDescBy (fun a b : Nat => decide (b < a))
        (((store.filter fun f => f.userId == uid && f.date.year == y).map
          fun f => f.date.month).dedup)).map
        (fun m =>
          { month := monthAbbrev m
            count := ((store.filter fun f => f.userId == uid && f.date.year == y).filter
              fun f => f.date.month == m).length }) := rfl

theorem filterMap_if_zero {β : Type} (g : Nat → β) (c : Nat → Nat) (l : List Nat) :
    (l.filterMap fun m => if c m = 0 then none else some (g m)) =
      (l.filter fun m => decide (¬ c m = 0)).map g := by
  induction l with
  | nil => rfl
  | cons a as ih =>
    by_cases h : c a = 0
    · simp [List.filterMap_cons, List.filter_cons, h, ih]
    · simp [List.filterMap_cons, List.filter_cons, h, ih]

theorem monthlySpec_eq (store : List Flight) (uid : String) (y : Nat) :
    monthlySpec store uid y =
      (((List.range 12).map fun i => i + 1).filter
        fun m => decide (¬ monthCount store uid y m = 0)).map
        (fun m => { month := monthAbbrev m, count := monthCount store uid y m }) := by
  have h1 : monthlySpec store uid y =
      (((List.range 12).map fun i => i + 1).filterMap
        fun m => if monthCount store uid y m = 0 then none
          else some { month := monthAbbrev m, count := monthCount store uid y m }) := by
    rw [List.filterMap_map]
    rfl
  rw [h1]
  exact filterMap_if_zero
    (fun m => ({ month := monthAbbrev m, count := monthCount store uid y m } :
      MonthActivityEntry))
    (monthCount store uid y) ((List.range 12).map fun i => i + 1)

theorem sorted_months_eq (store : List Flight) (uid : String) (y : Nat)
    (hm : ∀ f ∈ store, 1 ≤ f.date.month ∧ f.date.month ≤ 12) :
    sortDescBy (fun a b : Nat => decide (b < a))
      (((store.filter fun f => f.userId == uid && f.date.year == y).map
        fun f => f.date.month).dedup) =
      ((List.range 12).map fun i => i + 1).filter
        fun m => decide (¬ monthCount store uid y m = 0) := by
  set yearRows := store.filter fun f => f.userId == uid && f.date.year == y with hyr
  have hLnd : (sortDescBy (fun a b : Nat => decide (b < a))
      ((yearRows.map fun f => f.date.month).dedup)).Nodup :=
    ((perm_sortDescBy _ _).nodup_iff).mpr (List.nodup_dedup _)
  have hRnd : (((List.range 12).map fun i => i + 1).filter
      fun m => decide (¬ monthCount store uid y m = 0)).Nodup := by
    apply List.Nodup.filter
    exact (List.nodup_range 12).map (fun a b h => by omega)
  have hcnt : ∀ m, monthCount store uid y m ≠ 0 ↔ ∃ f ∈ yearRows, f.date.month = m := by
    intro m
    rw [monthCount_eq, ← hyr, ← Nat.pos_iff_ne_zero, List.length_pos_iff_exists_mem]
    constructor
    · rintro ⟨f, hf⟩
      obtain ⟨hfy, hfm⟩ := List.mem_filter.mp hf
      exact ⟨f, hfy, eq_of_beq hfm⟩
    · rintro ⟨f, hfy, hfm⟩
      exact ⟨f, List.mem_filter.mpr ⟨hfy, beq_iff_eq.mpr hfm⟩⟩
  have hiff : ∀ m, m ∈ sortDescBy (fun a b : Nat => decide (b < a))
      ((yearRows.map fun f => f.date.month).dedup) ↔
      m ∈ ((List.range 12).map fun i => i + 1).filter
        fun m => decide (¬ monthCount store uid y m = 0) := by
    intro m
    rw [mem_sortDescBy, List.mem_dedup, List.mem_filter, List.mem_map]
    constructor
    · rintro ⟨f, hfy, hfm⟩
      have hfs : f ∈ store := (List.mem_filter.mp (hyr ▸ hfy)).1
      have hb := hm f hfs
      refine ⟨List.mem_map.mpr ⟨m - 1, List.mem_range.mpr (by omega), by omega⟩, ?_⟩
      simp only [decide_eq_true_eq]
      exact (hcnt m).mpr ⟨f, hfy, hfm⟩
    · rintro ⟨_, hc⟩
      have := (hcnt m).mp (by simpa using hc)
      obtain ⟨f, hfy, hfm⟩ := this
      exact ⟨f, hfy, hfm⟩
  have hperm := (List.perm_ext_iff_of_nodup hLnd hRnd).mpr hiff
  have hLs : (sortDescBy (fun a b : Nat => decide (b < a))
      ((yearRows.map fun f => f.date.month).dedup)).Pairwise (· ≤ ·) :=
    pairwise_le_sortAscNat _
  have hRs : (((List.range 12).map fun i => i + 1).filter
      fun m => decide (¬ monthCount store uid y m = 0)).Pairwise (· ≤ ·) := by
    apply List.Pairwise.filter
    have h1 : (List.range 12).Pairwise (· < ·) := List.pairwise_lt_range 12
    have h2 : ((List.range 12).map fun i => i + 1).Pairwise (· < ·) :=
      List.Pairwise.map _ (fun a b h => by omega) h1
    exact h2.imp fun h => Nat.le_of_lt h
  exact List.eq_of_perm_of_sorted hperm hLs hRs

/-- C3 (confirmed): `monthlyActivity` contains exactly one `(label, count)`
entry per calendar month of the current year in which the owner has at
least one flight, in ascending month order, with months of zero flights
absent and flights of other years contributing nothing — it equals the
month list described by the spec (`monthlySpec`). Hypothesis: stored
months lie in 1..12, as every date the pipeline stores does. -/
theorem monthlyActivity_matches_spec (store : List Flight) (uid : String) (y : Nat)
    (hm : ∀ f ∈ store, 1 ≤ f.date.month ∧ f.date.month ≤ 12) :
    (getFlightStats store uid y).monthlyActivity = monthlySpec store uid y := by
  rw [monthlyActivity_proj, monthlySpec_eq, sorted_months_eq store uid y hm]
  have hfun : (fun m : Nat =>
      { month := monthAbbrev m
        count := ((store.filter fun f => f.userId == uid && f.date.year == y).filter
          fun f => f.date.month == m).length : MonthActivityEntry }) =
      fun m : Nat =>
        { month := monthAbbrev m, count := monthCount store uid y m } := by
    funext m
    rw [monthCount_eq]
  rw [hfun]

/-- Witness for C3 at a concrete store spanning two owners and two years
(flights dated 2024-01-15 and 2025-03-02 with "now" in 2025). -/
theorem monthlyActivity_matches_spec_witness :
    (getFlightStats
        [mkFlight "u" ⟨2024, 1, 15⟩ "LH" none none,
          mkFlight "u" ⟨2025, 3, 2⟩ "LH" (some "FRA") (some "LAX"),
          mkFlight "v" ⟨2025, 5, 1⟩ "BA" none none] "u" 2025).monthlyActivity =
      monthlySpec
        [mkFlight "u" ⟨2024, 1, 15⟩ "LH" none none,
          mkFlight "u" ⟨2025, 3, 2⟩ "LH" (some "FRA") (some "LAX"),
          mkFlight "v" ⟨2025, 5, 1⟩ "BA" none none] "u" 2025 :=
  monthlyActivity_matches_spec
    [mkFlight "u" ⟨2024, 1, 15⟩ "LH" none none,
      mkFlight "u" ⟨2025, 3, 2⟩ "LH" (some "FRA") (some "LAX"),
      mkFlight "v" ⟨2025, 5, 1⟩ "BA" none none] "u" 2025 (by decide)

theorem codeHere_complete (a b c : Char) (t : List Char)
    (ha : a.isUpper) (hb : b.isUpper) (hc : c.isUpper) :
    codeHere ('(' :: a :: b :: c :: '/' :: t) = some [a, b, c] := by
  simp [codeHere, ha, hb, hc]

theorem codeHere_sound {l r : List Char} (h : codeHere l = some r) :
    ∃ a b c t, l = '(' :: a :: b :: c :: '/' :: t ∧
      a.isUpper ∧ b.isUpper ∧ c.isUpper ∧ r = [a, b, c] := by
  unfold codeHere at h
  split at h
  · next a b c t =>
    split at h
    · next hup =>
      simp only [Bool.and_eq_true] at hup
      obtain ⟨⟨ha, hb⟩, hc⟩ := hup
      cases h
      exact ⟨a, b, c, t, rfl, ha, hb, hc, rfl⟩
    · cases h
  · cases h

theorem scanCode_sound : ∀ (l : List Char) (r : List Char), scanCode l = some r →
    ∃ p a b c t, l = p ++ '(' :: a :: b :: c :: '/' :: t ∧
      a.isUpper ∧ b.isUpper ∧ c.isUpper ∧ r = [a, b, c] ∧
      ∀ (q : List Char) (x y z : Char) (s : List Char),
        l = q ++ '(' :: x :: y :: z :: '/' :: s →
        x.isUpper → y.isUpper → z.isUpper → p.length ≤ q.length := by
  intro l
  induction l with
  | nil => intro r h; simp [scanCode] at h
  | cons ch cs ih =>
    intro r h
    rw [scanCode] at h
    cases hch : codeHere (ch :: cs) with
    | some r0 =>
      simp only [hch] at h
      cases h
      obtain ⟨a, b, c, t, heq, ha, hb, hc, hr⟩ := codeHere_sound hch
      refine ⟨[], a, b, c, t, by simpa using heq, ha, hb, hc, hr, ?_⟩
      intro q x y z s _ _ _ _
      simp
    | none =>
      simp only [hch] at h
      obtain ⟨p, a, b, c, t, heq, ha, hb, hc, hr, hmin⟩ := ih r h
      refine ⟨ch :: p, a, b, c, t, by simp [heq], ha, hb, hc, hr, ?_⟩
      intro q x y z s hq hx hy hz
      cases q with
      | nil =>
        exfalso
        simp only [List.nil_append, List.cons.injEq] at hq
        have hcontra : codeHere (ch :: cs) = some [x, y, z] := by
          rw [hq.1, hq.2]
          exact codeHere_complete x y z s hx hy hz
        rw [hcontra] at hch
        cases hch
      | cons qh qt =>
        simp only [List.cons_append, List.cons.injEq] at hq
        have := hmin qt x y z s hq.2 hx hy hz
        simpa using Nat.succ_le_succ this

theorem scanCode_complete : ∀ (p : List Char) (a b c : Char) (t : List Char),
    a.isUpper → b.isUpper → c.isUpper →
    (scanCode (p ++ '(' :: a :: b :: c :: '/' :: t)).isSome := by
  intro p
  induction p with
  | nil =>
    intro a b c t ha hb hc
    rw [List.nil_append, scanCode, codeHere_complete a b c t ha hb hc]
    rfl
  | cons x xs ih =>
    intro a b c t ha hb hc
    rw [List.cons_append, scanCode]
    cases hch : codeHere (x :: (xs ++ '(' :: a :: b :: c :: '/' :: t)) with
    | some r => simp [hch]
    | none =>
      simp only [hch]
      exact ih a b c t ha hb hc

/-- C5 (confirmed): `extractAirportCode` returns the uppercase 3-letter
run standing immediately before the `/` of the leftmost parenthesized
`(XXX/…)` group (the two spec examples evaluate as claimed); whenever it
returns a code, that code occurs verbatim in the input inside such a
group — never fabricated by truncating free text; and whenever such a
group exists, the result is not `null`. Absence of the pattern gives the
ordinary value `none`, never an exception (the function is total). -/
theorem extractAirportCode_spec :
    extractAirportCode "Los Angeles / LAX International (LAX/KLAX)" = some "LAX" ∧
    extractAirportCode "Unknown Field" = none ∧
    (∀ (s : String) (c : String), extractAirportCode s = some c →
      ∃ p a b ch t, s.data = p ++ '(' :: a :: b :: ch :: '/' :: t ∧
        a.isUpper ∧ b.isUpper ∧ ch.isUpper ∧ c = String.mk [a, b, ch] ∧
        ∀ (q : List Char) (x y z : Char) (r : List Char),
          s.data = q ++ '(' :: x :: y :: z :: '/' :: r →
          x.isUpper → y.isUpper → z.isUpper → p.length ≤ q.length) ∧
    ∀ (s : String) (p : List Char) (a b ch : Char) (t : List Char),
      s.data = p ++ '(' :: a :: b :: ch :: '/' :: t →
      a.isUpper → b.isUpper → ch.isUpper → extractAirportCode s ≠ none := by
  refine ⟨by decide, by decide, ?_, ?_⟩
  · intro s c h
    unfold extractAirportCode at h
    cases hsc : scanCode s.data with
    | none => rw [hsc] at h; cases h
    | some r =>
      rw [hsc] at h
      obtain ⟨p, a, b, ch, t, heq, ha, hb, hc, hr, hmin⟩ := scanCode_sound s.data r hsc
      refine ⟨p, a, b, ch, t, heq, ha, hb, hc, ?_, hmin⟩
      cases h
      rw [hr]
  · intro s p a b ch t heq ha hb hc hnone
    unfold extractAirportCode at hnone
    have hsome := scanCode_complete p a b ch t ha hb hc
    rw [← heq] at hsome
    cases hsc : scanCode s.data with
    | none => rw [hsc] at hsome; cases hsome
    | some r => rw [hsc] at hnone; cases hnone

/-- Witness for C5's universal parts at the Frankfurt example. -/
theorem extractAirportCode_spec_witness :
    extractAirportCode "Frankfurt am Main / Frankfurt (FRA/EDDF)" ≠ none :=
  extractAirportCode_spec.2.2.2 "Frankfurt am Main / Frankfurt (FRA/EDDF)"
    "Frankfurt am Main / Frankfurt ".data 'F' 'R' 'A' "EDDF)".data
    (by decide) (by decide) (by decide) (by decide)

end FlightTool
